import Mathlib

/-!
Verification of the session orchestrator of the `llm-fuzz` fuzzing driver
(`src/fuzzer/main.py`).  Python strings are modelled as `List Char`
(a Python `str` is a sequence of characters); Python's `str.lower` is
modelled character-wise by `Char.toLower` (the strings the program matches
on are ASCII); the substring operator `in` is modelled by `List.IsInfix`.
The external compiler subprocess is modelled as an oracle from the source
text to an exit status plus its standard output and standard error streams.
Filesystem writes and subprocess executions are recorded as an explicit
event trace.
-/

/-- Python string, modelled as its list of characters. -/
abbrev Str := List Char

/-- Model of Python `str.lower()`, applied character by character. -/
def pyLower (s : Str) : Str := s.map Char.toLower

/-- Model of the Python substring test `needle in hay`. -/
def pyIn (needle hay : Str) : Bool := decide (needle <:+: hay)

/-- The internal-error marker matched by `bug_found` in `main.py`. -/
def internalErrorMarker : Str := "internal compiler error".toList

/-- The canonical expected-failure phrase matched by `bug_found` in `main.py`. -/
def expectedFailurePhrase : Str := "tact compilation failed".toList

/-- Embedding of `bug_found(output, succeeded)` from `main.py` (lines 219-231):
lowercase the output, return true if it contains the internal-error marker,
otherwise return true if the compilation failed and the output does not
contain the expected-failure phrase, otherwise false. -/
def bug_found (output : Str) (succeeded : Bool) : Bool :=
  let output_lower := pyLower output
  if pyIn internalErrorMarker output_lower then true
  else if !succeeded && !(pyIn expectedFailurePhrase output_lower) then true
  else false

/-- Embedding of `truncate(text, length)` from `main.py` (lines 212-216).
The Python default for `length` is 200; every call site in the source uses
that default, and the model passes 200 explicitly. -/
def truncate (text : Str) (length : Nat) : Str :=
  if text.length ≤ length then text else text.take length ++ "...".toList

/-- Decimal digit characters of `n`, most significant digit first, by
fuel recursion (any `fuel ≥ n` gives the same answer). -/
def decDigits : Nat → Nat → Str
  | 0, _ => []
  | fuel + 1, n =>
      if n = 0 then [] else decDigits fuel (n / 10) ++ [Nat.digitChar (n % 10)]

/-- Decimal representation of a natural number, most significant digit
first: the model of Python's formatting of an `int` inside an f-string. -/
def decRepr (n : Nat) : Str := if n = 0 then ['0'] else decDigits n n

/-- The per-session artifact namespace `run_prefix = f"agent{agent_id}_{random_part}"`
built at the top of `run_agent` (`main.py` lines 369-372). -/
def runPfx (agentId : Nat) (randomPart : Str) : Str :=
  "agent".toList ++ decRepr agentId ++ '_' :: randomPart

/-- The snippet file name `f"{run_prefix}_{snippet_index}.tact"`. -/
def snippetFilename (pfx : Str) (idx : Nat) : Str :=
  pfx ++ '_' :: decRepr idx ++ ".tact".toList

/-- The working copy `os.path.join("tmp", filename)` written by `compile_snippet`. -/
def tmp_file (pfx : Str) (idx : Nat) : Str :=
  "tmp/".toList ++ snippetFilename pfx idx

/-- The compiler-output record `os.path.join("tmp", f"{run_prefix}_{snippet_index}.txt")`. -/
def compiler_output_file (pfx : Str) (idx : Nat) : Str :=
  "tmp/".toList ++ pfx ++ '_' :: decRepr idx ++ ".txt".toList

/-- The confirmed-good copy `os.path.join("snippets", filename)`. -/
def snippet_destination (pfx : Str) (idx : Nat) : Str :=
  "snippets/".toList ++ snippetFilename pfx idx

/-- One invocation of the external `tact` compiler subprocess: exit status
(zero or not) plus captured standard output and standard error. -/
structure CompilerRun where
  exitZero : Bool
  stdout : Str
  stderr : Str

/-- The external compiler, as a deterministic oracle from the source text
to the subprocess outcome. -/
abbrev Compiler := Str → CompilerRun

/-- A side effect performed by the orchestrator: a file write (path and
content) or a subprocess execution (argv).  `shutil.copy` of the working
copy is recorded as a write of the copied content at the destination.
`os.makedirs` creates directories, not files, and is not an event. -/
inductive FsEvent where
  | write (path content : Str)
  | exec (argv : List Str)
deriving DecidableEq

/-- The value returned by `compile_snippet`: the dictionary
`{"output": compiler_output, "succeeded": compilation_succeeded}`. -/
structure CompileOutcome where
  output : Str
  succeeded : Bool
deriving DecidableEq

/-- Embedding of `compile_snippet(code, run_prefix, snippet_index)` from
`main.py` (lines 234-277): write the code to the working copy in `tmp/`,
run `tact` on it, on zero exit take standard output and copy the file to
`snippets/`, on non-zero exit (`subprocess.CalledProcessError`, because of
`check=True`) take standard error and do not copy; finally write the
captured output to the compiler-output record in `tmp/`.  Returns the
outcome together with the ordered event trace. -/
def compile_snippet (tact : Compiler) (code pfx : Str) (idx : Nat) :
    CompileOutcome × List FsEvent :=
  let r := tact code
  if r.exitZero then
    (⟨r.stdout, true⟩,
      [FsEvent.write (tmp_file pfx idx) code,
       FsEvent.exec ["tact".toList, tmp_file pfx idx],
       FsEvent.write (snippet_destination pfx idx) code,
       FsEvent.write (compiler_output_file pfx idx) r.stdout])
  else
    (⟨r.stderr, false⟩,
      [FsEvent.write (tmp_file pfx idx) code,
       FsEvent.exec ["tact".toList, tmp_file pfx idx],
       FsEvent.write (compiler_output_file pfx idx) r.stderr])

/-- Paths of the file writes in an event trace. -/
def writePaths (evs : List FsEvent) : List Str :=
  evs.filterMap fun e => match e with
    | FsEvent.write p _ => some p
    | _ => none

/-- Number of subprocess executions in an event trace. -/
def countExec (evs : List FsEvent) : Nat :=
  evs.countP fun e => match e with
    | FsEvent.exec _ => true
    | _ => false

/-- One item of a conversation turn (`response.output` in `run_agent`), as
dispatched on by `item.type` and `item.name`.  For a `compile_snippet`
function call the argument payload is `none` when `json.loads` raises
(non-decodable JSON) and `some codeField` when it decodes to an object,
where `codeField` is the optional value of its `"code"` key.  For a
`report_issue` call the payload is `none` on a decode error and otherwise
carries the optional `"reason"` and `"found_issue"` values.  A `message`
item carries its text and the `file_citation` filenames attached to it. -/
inductive Item where
  | compileCall (args : Option (Option Str))
  | reportCall (args : Option (Option Str × Option Bool))
  | unknownCall (name : Str)
  | message (content : Str) (citations : List Str)
  | fileSearchCall
  | reasoning
  | other (descr : Str)
deriving DecidableEq

/-- A request sent back to the external tool-calling service by one round
of `run_agent`: a generic continuation (`CONTINUATION_USER_MESSAGE`), a
compile tool output (with the optional bug-report directive message sent
alongside), or the `report_issue` acknowledgement. -/
inductive Request where
  | continueReq
  | compileOutput (output : Str) (bugDirective : Option Str)
  | reportAck
deriving DecidableEq

/-- The reason extracted from a `report_issue` payload, with the fallbacks
used in `main.py` (lines 484-491). -/
def reportReason : Option (Option Str × Option Bool) → Str
  | none => "No reason provided due to JSON error.".toList
  | some (r, _) => r.getD ("No reason provided".toList)

/-- The genuine-issue flag extracted from a `report_issue` payload,
defaulting to false (`main.py` lines 484-492). -/
def reportFoundIssue : Option (Option Str × Option Bool) → Bool
  | none => false
  | some (_, f) => f.getD false

/-- Model of `os.path.basename`: the component after the last slash. -/
def basename (p : Str) : Str :=
  p.foldl (fun acc c => if c = '/' then [] else acc ++ [c]) []

/-- The compiled-snippets section of a report body (`main.py` lines 497-508):
markdown links for each recorded path, or the explicit none-compiled note. -/
def formattedSnippets (paths : List Str) : Str :=
  if paths.isEmpty then "No code snippets compiled in this session.".toList
  else List.intercalate ['\n']
    (paths.map fun p => "- [".toList ++ basename p ++ "](".toList ++ p ++ ")".toList)

/-- Lexicographic comparison of character lists, the order used to model
Python's `sorted` on strings. -/
def lexLe : Str → Str → Bool
  | [], _ => true
  | _ :: _, [] => false
  | a :: as, b :: bs => if a = b then lexLe as bs else decide (a < b)

/-- Insert into a `lexLe`-sorted list. -/
def insertSorted (x : Str) : List Str → List Str
  | [] => [x]
  | y :: ys => if lexLe x y then x :: y :: ys else y :: insertSorted x ys

/-- Insertion sort by `lexLe`, modelling Python's `sorted`. -/
def sortStrs : List Str → List Str
  | [] => []
  | x :: xs => insertSorted x (sortStrs xs)

/-- The cited documentation filenames collected from the current turn's
message items (`main.py` lines 510-523), deduplicated and sorted, modelling
`sorted(cited_files)` over the set of `file_citation` filenames. -/
def citedFiles (items : List Item) : List Str :=
  sortStrs (items.flatMap fun it => match it with
    | Item.message _ cits => cits
    | _ => []).dedup

/-- The citations section of a report body (`main.py` lines 524-529). -/
def citationsMarkdown (cited : List Str) : Str :=
  if cited.isEmpty then "No cited documentation files.".toList
  else List.intercalate ['\n'] (cited.map fun f => "- ".toList ++ f)

/-- The report body appended to the reported-issues file
(`report_message`, `main.py` lines 531-536). -/
def report_message (agentId : Nat) (reason : Str) (snips : List Str)
    (cited : List Str) : Str :=
  "\n\n## Reported Issue by Agent ".toList ++ decRepr agentId
    ++ "\n\n**Issue:**\n".toList ++ reason
    ++ "\n\n**Compiled Code Snippets:**\n".toList ++ formattedSnippets snips
    ++ "\n\n**Cited Documentation Files:**\n".toList ++ citationsMarkdown cited
    ++ "\n\n".toList

/-- `BUG_REASON_TEMPLATE.format(snippet_id=..., output=...)` from `main.py`. -/
def bugReasonText (snippetId output : Str) : Str :=
  "Compilation of snippet \x27".toList ++ snippetId
    ++ "\x27 uncovered a critical anomaly:\n--- Begin Compiler Output ---\n".toList
    ++ output
    ++ "\n--- End Compiler Output ---\n\nCarefully review the above compiler output to confirm this significant bug or documentation issue before invoking \x27report_issue\x27.".toList

/-- `REPORT_PROMPT_TEMPLATE.format(reason=...)` from `main.py`. -/
def reportPromptText (reason : Str) : Str :=
  "You have detected a potential severe issue or misinformation. Immediately invoke the \x27report_issue\x27 command with this detailed reason: ".toList
    ++ reason

/-- The per-session identity: integer agent id and the random part of the
artifact namespace. -/
structure AgentCtx where
  agentId : Nat
  randomPart : Str
deriving DecidableEq

/-- The session's artifact namespace token `run_prefix`. -/
def AgentCtx.pfx (ctx : AgentCtx) : Str := runPfx ctx.agentId ctx.randomPart

/-- The session-local mutable state of `run_agent`: the snippet counter
and the accumulated artifact paths (`compiled_snippets`). -/
structure SessionState where
  snippet_index : Nat
  compiled_snippets : List Str
deriving DecidableEq

/-- The state at the top of `run_agent`: counter 0, no artifacts. -/
def initialState : SessionState := ⟨0, []⟩

/-- Result of the `for idx, item in enumerate(items)` loop of `run_agent`:
the state on exit, the service requests issued, the bodies appended to the
reported-issues file, the filesystem/subprocess events, the snippet
indices dispatched to the gateway (a ghost trace of the counter values
used), whether the session returned (`found_issue` true), and the value of
`function_call_handled` on exit. -/
structure LoopResult where
  state : SessionState
  requests : List Request
  sinkAppends : List Str
  events : List FsEvent
  dispatched : List Nat
  terminated : Bool
  handled : Bool
deriving DecidableEq

/-- Embedding of the item loop of `run_agent` (`main.py` lines 409-630).
`turnItems` is the full current turn (`response.output`), scanned for
citations by the report branch; the recursion argument is the remaining
items.  A `compile_snippet` call with non-decodable arguments is skipped
(`continue`); a decodable one reads `args.get("code", "")`, increments the
counter, dispatches the gateway, records the artifact path, responds with
the compiler output plus the bug directive when `bug_found` fires, sets
`function_call_handled` and breaks.  A `report_issue` call builds the
report body, appends it and returns when the flag is true, and otherwise
acknowledges, issues the explicit continuation request and breaks without
setting `function_call_handled`.  All other items only log. -/
def itemLoop (ctx : AgentCtx) (tact : Compiler) (turnItems : List Item)
    (s : SessionState) : List Item → LoopResult
  | [] => ⟨s, [], [], [], [], false, false⟩
  | Item.compileCall none :: rest => itemLoop ctx tact turnItems s rest
  | Item.compileCall (some codeField) :: _ =>
      let code := codeField.getD []
      let idx := s.snippet_index + 1
      let r := compile_snippet tact code (AgentCtx.pfx ctx) idx
      let path := if r.1.succeeded then snippet_destination (AgentCtx.pfx ctx) idx
                  else tmp_file (AgentCtx.pfx ctx) idx
      let bug : Option Str :=
        if bug_found r.1.output r.1.succeeded then
          some (reportPromptText (bugReasonText
            (AgentCtx.pfx ctx ++ '_' :: decRepr idx) (truncate r.1.output 200)))
        else none
      ⟨⟨idx, s.compiled_snippets ++ [path]⟩, [Request.compileOutput r.1.output bug],
        [], r.2, [idx], false, true⟩
  | Item.reportCall args :: _ =>
      let body := report_message ctx.agentId (reportReason args)
        s.compiled_snippets (citedFiles turnItems)
      if reportFoundIssue args then
        ⟨s, [Request.reportAck], [body], [], [], true, false⟩
      else
        ⟨s, [Request.reportAck, Request.continueReq], [], [], [], false, false⟩
  | Item.unknownCall _ :: rest => itemLoop ctx tact turnItems s rest
  | Item.message _ _ :: rest => itemLoop ctx tact turnItems s rest
  | Item.fileSearchCall :: rest => itemLoop ctx tact turnItems s rest
  | Item.reasoning :: rest => itemLoop ctx tact turnItems s rest
  | Item.other _ :: rest => itemLoop ctx tact turnItems s rest

/-- Result of one iteration of the `while True` loop of `run_agent`. -/
structure TurnResult where
  state : SessionState
  requests : List Request
  sinkAppends : List Str
  events : List FsEvent
  dispatched : List Nat
  terminated : Bool
deriving DecidableEq

/-- Embedding of one iteration of the `while True` loop of `run_agent`
(`main.py` lines 393-630): an empty turn immediately requests a
continuation; otherwise the items are scanned by `itemLoop`, and when the
loop exits without `function_call_handled` set and without returning, a
trailing continuation request is issued. -/
def processTurn (ctx : AgentCtx) (tact : Compiler) (s : SessionState)
    (items : List Item) : TurnResult :=
  if items.isEmpty then ⟨s, [Request.continueReq], [], [], [], false⟩
  else
    let r := itemLoop ctx tact items s items
    if r.terminated then ⟨r.state, r.requests, r.sinkAppends, r.events, r.dispatched, true⟩
    else if r.handled then
      ⟨r.state, r.requests, r.sinkAppends, r.events, r.dispatched, false⟩
    else
      ⟨r.state, r.requests ++ [Request.continueReq], r.sinkAppends, r.events,
        r.dispatched, false⟩

/-- The observable trace of a whole session. -/
structure SessionTrace where
  finalState : SessionState
  requests : List Request
  sinkAppends : List Str
  events : List FsEvent
  dispatched : List Nat
  terminated : Bool
deriving DecidableEq

/-- A session run over a given list of turns supplied by the external
service: iterate `processTurn`, stopping when a turn terminates the
session (a report with the genuine-issue flag). -/
def runSession (ctx : AgentCtx) (tact : Compiler) (s : SessionState) :
    List (List Item) → SessionTrace
  | [] => ⟨s, [], [], [], [], false⟩
  | turn :: rest =>
      let r := processTurn ctx tact s turn
      if r.terminated then
        ⟨r.state, r.requests, r.sinkAppends, r.events, r.dispatched, true⟩
      else
        let tr := runSession ctx tact r.state rest
        ⟨tr.finalState, r.requests ++ tr.requests, r.sinkAppends ++ tr.sinkAppends,
          r.events ++ tr.events, r.dispatched ++ tr.dispatched, tr.terminated⟩

/-- Number of continuation requests in a request list. -/
def countContinue (reqs : List Request) : Nat :=
  reqs.countP fun r => match r with
    | Request.continueReq => true
    | _ => false

/-- Number of compile tool outputs in a request list. -/
def countCompileOut (reqs : List Request) : Nat :=
  reqs.countP fun r => match r with
    | Request.compileOutput _ _ => true
    | _ => false

/-- Items that only log and never alter control flow in `run_agent`:
messages, search and reasoning notices, unrecognized items, unknown
function names, and compile calls whose arguments fail to decode. -/
def observational : Item → Bool
  | Item.compileCall none => true
  | Item.unknownCall _ => true
  | Item.message _ _ => true
  | Item.fileSearchCall => true
  | Item.reasoning => true
  | Item.other _ => true
  | _ => false

/-- A concrete compiler oracle that always exits with status zero. -/
def okCompiler : Compiler := fun _ => ⟨true, "out".toList, "err".toList⟩

/-- A concrete compiler oracle that always exits with non-zero status. -/
def failCompiler : Compiler := fun _ => ⟨false, "out".toList, "boom".toList⟩

/-- A concrete session identity used to evaluate the model. -/
def ctxA : AgentCtx := ⟨1, "aaaaaaaa".toList⟩

/-- A second concrete session identity with a different agent id. -/
def ctxB : AgentCtx := ⟨2, "aaaaaaaa".toList⟩

/-- A compiler output containing both the internal-error marker and the
expected-failure phrase. -/
def cexOutput : Str := "internal compiler error: tact compilation failed".toList

/-- A concrete one-turn conversation consisting of a single well-formed
compile tool-call. -/
def turnsW : List (List Item) := [[Item.compileCall (some (some ("x".toList)))]]

/-- Distinct decimal digits below ten map to distinct characters. -/
theorem digitChar_inj_lt : ∀ d : Nat, d < 10 → ∀ e : Nat, e < 10 →
    Nat.digitChar d = Nat.digitChar e → d = e := by decide

/-- The fuel recursion of `decDigits` computes the reversed
`Nat.digits` representation once the fuel covers the number. -/
theorem decDigits_eq : ∀ (fuel m : Nat), m ≤ fuel →
    decDigits fuel m = ((Nat.digits 10 m).map Nat.digitChar).reverse := by
  intro fuel
  induction fuel with
  | zero =>
    intro m hm
    interval_cases m
    simp [decDigits]
  | succ f ih =>
    intro m hm
    by_cases hm0 : m = 0
    · subst hm0; simp [decDigits]
    · have hdiv : m / 10 ≤ f := by
        have h1 : m / 10 < m := Nat.div_lt_self (Nat.pos_of_ne_zero hm0) (by norm_num)
        omega
      rw [show decDigits (f + 1) m = decDigits f (m / 10) ++ [Nat.digitChar (m % 10)] from by
        simp [decDigits, hm0]]
      rw [ih (m / 10) hdiv]
      rw [Nat.digits_def' (by norm_num : (1 : Nat) < 10) (Nat.pos_of_ne_zero hm0)]
      simp

/-- `decRepr` agrees with the `Nat.digits`-based decimal representation. -/
theorem decRepr_eq (n : Nat) :
    decRepr n = if n = 0 then ['0'] else ((Nat.digits 10 n).map Nat.digitChar).reverse := by
  unfold decRepr
  by_cases h : n = 0
  · simp [h]
  · simp [h, decDigits_eq n n le_rfl]

/-- Every character of a decimal representation is a digit. -/
theorem decRepr_digit {n : Nat} {c : Char} (hc : c ∈ decRepr n) : c.isDigit = true := by
  rw [decRepr_eq] at hc
  split at hc
  · simp at hc; subst hc; decide
  · simp only [List.mem_reverse, List.mem_map] at hc
    obtain ⟨d, hd, rfl⟩ := hc
    have h10 : d < 10 := Nat.digits_lt_base (by norm_num) hd
    interval_cases d <;> decide

/-- Digit characters are pointwise injective on digit lists. -/
theorem mapDigits_inj : ∀ (l1 l2 : List Nat), (∀ d ∈ l1, d < 10) → (∀ d ∈ l2, d < 10) →
    l1.map Nat.digitChar = l2.map Nat.digitChar → l1 = l2 := by
  intro l1
  induction l1 with
  | nil => intro l2 _ _ h; cases l2 with
    | nil => rfl
    | cons b bs => simp at h
  | cons a as ih =>
    intro l2 h1 h2 h
    cases l2 with
    | nil => simp at h
    | cons b bs =>
      simp only [List.map_cons, List.cons.injEq] at h
      have ha : a = b := digitChar_inj_lt a (h1 a (by simp)) b (h2 b (by simp)) h.1
      have hs : as = bs := ih bs (fun d hd => h1 d (by simp [hd]))
        (fun d hd => h2 d (by simp [hd])) h.2
      rw [ha, hs]

/-- The decimal representation is injective. -/
theorem decRepr_injective : Function.Injective decRepr := by
  intro a b h
  rw [decRepr_eq, decRepr_eq] at h
  by_cases ha : a = 0 <;> by_cases hb : b = 0
  · rw [ha, hb]
  · exfalso
    rw [if_pos ha, if_neg hb] at h
    have h2 : (Nat.digits 10 b).map Nat.digitChar = ['0'] := by
      have := congrArg List.reverse h
      simpa using this.symm
    have h3 : Nat.digits 10 b = [0] := by
      have hlen := congrArg List.length h2
      simp at hlen
      obtain ⟨d, hd⟩ := List.length_eq_one.mp hlen
      rw [hd] at h2
      simp at h2
      have hd10 : d < 10 := Nat.digits_lt_base (by norm_num)
        (by rw [hd]; exact List.mem_singleton_self d)
      have : d = 0 := digitChar_inj_lt d hd10 0 (by norm_num) (by simpa using h2)
      rw [hd, this]
    have : b = 0 := by
      have := Nat.ofDigits_digits 10 b
      rw [h3] at this
      simpa [Nat.ofDigits] using this.symm
    exact hb this
  · exfalso
    rw [if_neg ha, if_pos hb] at h
    have h2 : (Nat.digits 10 a).map Nat.digitChar = ['0'] := by
      have := congrArg List.reverse h
      simpa using this
    have h3 : Nat.digits 10 a = [0] := by
      have hlen := congrArg List.length h2
      simp at hlen
      obtain ⟨d, hd⟩ := List.length_eq_one.mp hlen
      rw [hd] at h2
      simp at h2
      have hd10 : d < 10 := Nat.digits_lt_base (by norm_num)
        (by rw [hd]; exact List.mem_singleton_self d)
      have : d = 0 := digitChar_inj_lt d hd10 0 (by norm_num) (by simpa using h2)
      rw [hd, this]
    have : a = 0 := by
      have := Nat.ofDigits_digits 10 a
      rw [h3] at this
      simpa [Nat.ofDigits] using this.symm
    exact ha this
  · rw [if_neg ha, if_neg hb] at h
    have h2 := List.reverse_injective h
    have h3 := mapDigits_inj _ _ (fun d hd => Nat.digits_lt_base (by norm_num) hd)
      (fun d hd => Nat.digits_lt_base (by norm_num) hd) h2
    exact Nat.digits_inj_iff.mp h3

/-- Splitting a digit run at the first underscore is unambiguous. -/
theorem digitsSplit : ∀ (d1 : List Char) (t1 : Str) (d2 : List Char) (t2 : Str),
    (∀ c ∈ d1, c.isDigit = true) → (∀ c ∈ d2, c.isDigit = true) →
    d1 ++ '_' :: t1 = d2 ++ '_' :: t2 → d1 = d2 ∧ t1 = t2 := by
  intro d1
  induction d1 with
  | nil =>
    intro t1 d2 t2 _ h2 h
    cases d2 with
    | nil => simpa using h
    | cons c cs =>
      exfalso
      simp only [List.nil_append, List.cons_append, List.cons.injEq] at h
      have := h2 c (by simp)
      rw [← h.1] at this
      simp [Char.isDigit] at this
  | cons a as ih =>
    intro t1 d2 t2 h1 h2 h
    cases d2 with
    | nil =>
      exfalso
      simp only [List.cons_append, List.nil_append, List.cons.injEq] at h
      have := h1 a (by simp)
      rw [h.1] at this
      simp [Char.isDigit] at this
    | cons b bs =>
      simp only [List.cons_append, List.cons.injEq] at h
      obtain ⟨hs, ht⟩ := ih t1 bs t2 (fun c hc => h1 c (by simp [hc]))
        (fun c hc => h2 c (by simp [hc])) h.2
      exact ⟨by rw [h.1, hs], ht⟩

/-- Two artifact paths from namespaces of different agent ids never
coincide, whatever the random parts and path tails are. -/
theorem runPfx_append_ne (i j : Nat) (hij : i ≠ j) (r1 r2 t1 t2 : Str) :
    runPfx i r1 ++ t1 ≠ runPfx j r2 ++ t2 := by
  intro h
  have h1 : "agent".toList ++ (decRepr i ++ '_' :: (r1 ++ t1)) =
      "agent".toList ++ (decRepr j ++ '_' :: (r2 ++ t2)) := by
    simpa [runPfx, List.append_assoc] using h
  have h2 := List.append_cancel_left h1
  have h3 := digitsSplit _ _ _ _ (fun _ hc => decRepr_digit hc)
    (fun _ hc => decRepr_digit hc) h2
  exact hij (decRepr_injective h3.1)

/-- Namespaced paths under `tmp/` or `snippets/` of different agent ids
never coincide. -/
theorem nsPath_ne (i j : Nat) (hij : i ≠ j) (r1 r2 t1 t2 : Str) (d1 d2 : Bool) :
    (if d1 then "tmp/".toList else "snippets/".toList) ++ (runPfx i r1 ++ t1) ≠
    (if d2 then "tmp/".toList else "snippets/".toList) ++ (runPfx j r2 ++ t2) := by
  cases d1 <;> cases d2 <;> intro h
  · exact runPfx_append_ne i j hij r1 r2 t1 t2 (List.append_cancel_left h)
  · have h2 : 's' :: ("nippets/".toList ++ (runPfx i r1 ++ t1)) =
        't' :: ("mp/".toList ++ (runPfx j r2 ++ t2)) := h
    exact absurd (List.cons_eq_cons.mp h2).1 (by decide)
  · have h2 : 't' :: ("mp/".toList ++ (runPfx i r1 ++ t1)) =
        's' :: ("nippets/".toList ++ (runPfx j r2 ++ t2)) := h
    exact absurd (List.cons_eq_cons.mp h2).1 (by decide)
  · exact runPfx_append_ne i j hij r1 r2 t1 t2 (List.append_cancel_left h)

/-- The write paths of one gateway call, by success case. -/
theorem compile_snippet_writePaths (tact : Compiler) (code pfx : Str) (idx : Nat) :
    writePaths (compile_snippet tact code pfx idx).2 =
      if (tact code).exitZero then
        [tmp_file pfx idx, snippet_destination pfx idx, compiler_output_file pfx idx]
      else [tmp_file pfx idx, compiler_output_file pfx idx] := by
  cases h : (tact code).exitZero <;> simp [compile_snippet, writePaths, h]

/-- Each gateway call performs exactly one subprocess execution. -/
theorem compile_snippet_exec (tact : Compiler) (code pfx : Str) (idx : Nat) :
    countExec (compile_snippet tact code pfx idx).2 = 1 := by
  cases h : (tact code).exitZero <;> simp [compile_snippet, countExec, h]

/-- The working copy path rewritten into namespace shape. -/
theorem tmp_file_shape (pfx : Str) (idx : Nat) :
    tmp_file pfx idx = "tmp/".toList ++ (pfx ++ ('_' :: (decRepr idx ++ ".tact".toList))) := by
  simp [tmp_file, snippetFilename]

/-- The confirmed-good copy path rewritten into namespace shape. -/
theorem snippet_destination_shape (pfx : Str) (idx : Nat) :
    snippet_destination pfx idx =
      "snippets/".toList ++ (pfx ++ ('_' :: (decRepr idx ++ ".tact".toList))) := by
  simp [snippet_destination, snippetFilename]

/-- The compiler-output record path rewritten into namespace shape. -/
theorem compiler_output_file_shape (pfx : Str) (idx : Nat) :
    compiler_output_file pfx idx =
      "tmp/".toList ++ (pfx ++ ('_' :: (decRepr idx ++ ".txt".toList))) := by
  simp [compiler_output_file]

/-- The empty-turn branch of `run_agent` requests a continuation. -/
theorem processTurn_nil (ctx : AgentCtx) (tact : Compiler) (s : SessionState) :
    processTurn ctx tact s [] = ⟨s, [Request.continueReq], [], [], [], false⟩ := rfl

/-- Unfolding of `processTurn` on a non-empty turn. -/
theorem processTurn_cons (ctx : AgentCtx) (tact : Compiler) (s : SessionState)
    (it : Item) (rest : List Item) :
    processTurn ctx tact s (it :: rest) =
      (let r := itemLoop ctx tact (it :: rest) s (it :: rest)
       if r.terminated then ⟨r.state, r.requests, r.sinkAppends, r.events, r.dispatched, true⟩
       else if r.handled then
         ⟨r.state, r.requests, r.sinkAppends, r.events, r.dispatched, false⟩
       else
         ⟨r.state, r.requests ++ [Request.continueReq], r.sinkAppends, r.events,
           r.dispatched, false⟩) := rfl

/-- On a non-empty turn the state, events, dispatches and sink appends of
`processTurn` are those of the item loop. -/
theorem processTurn_core (ctx : AgentCtx) (tact : Compiler) (s : SessionState)
    (it : Item) (rest : List Item) :
    (processTurn ctx tact s (it :: rest)).state = (itemLoop ctx tact (it :: rest) s (it :: rest)).state ∧
    (processTurn ctx tact s (it :: rest)).events = (itemLoop ctx tact (it :: rest) s (it :: rest)).events ∧
    (processTurn ctx tact s (it :: rest)).dispatched = (itemLoop ctx tact (it :: rest) s (it :: rest)).dispatched ∧
    (processTurn ctx tact s (it :: rest)).sinkAppends = (itemLoop ctx tact (it :: rest) s (it :: rest)).sinkAppends := by
  rw [processTurn_cons]
  dsimp only
  split
  · exact ⟨rfl, rfl, rfl, rfl⟩
  · split
    · exact ⟨rfl, rfl, rfl, rfl⟩
    · exact ⟨rfl, rfl, rfl, rfl⟩

/-- Every write path of an item loop lies in the session's namespace. -/
theorem itemLoop_shape (ctx : AgentCtx) (tact : Compiler) (A : List Item) :
    ∀ (items : List Item) (s : SessionState) (p : Str),
      p ∈ writePaths (itemLoop ctx tact A s items).events →
      ∃ (t : Str) (d : Bool),
        p = (if d then "tmp/".toList else "snippets/".toList) ++ (AgentCtx.pfx ctx ++ t) := by
  intro items
  induction items with
  | nil => intro s p hp; simp [itemLoop, writePaths] at hp
  | cons it rest ih =>
    intro s p hp
    cases it with
    | compileCall args =>
      cases args with
      | none => exact ih s p hp
      | some cf =>
        have hp2 : p ∈ writePaths (compile_snippet tact (cf.getD [])
            (AgentCtx.pfx ctx) (s.snippet_index + 1)).2 := hp
        rw [compile_snippet_writePaths] at hp2
        by_cases hz : (tact (cf.getD [])).exitZero = true
        · rw [if_pos hz] at hp2
          simp only [List.mem_cons, List.mem_singleton, List.not_mem_nil, or_false] at hp2
          rcases hp2 with h | h | h
          · exact ⟨'_' :: (decRepr (s.snippet_index + 1) ++ ".tact".toList), true,
              h.trans (tmp_file_shape _ _)⟩
          · exact ⟨'_' :: (decRepr (s.snippet_index + 1) ++ ".tact".toList), false,
              h.trans (snippet_destination_shape _ _)⟩
          · exact ⟨'_' :: (decRepr (s.snippet_index + 1) ++ ".txt".toList), true,
              h.trans (compiler_output_file_shape _ _)⟩
        · rw [if_neg hz] at hp2
          simp only [List.mem_cons, List.mem_singleton, List.not_mem_nil, or_false] at hp2
          rcases hp2 with h | h
          · exact ⟨'_' :: (decRepr (s.snippet_index + 1) ++ ".tact".toList), true,
              h.trans (tmp_file_shape _ _)⟩
          · exact ⟨'_' :: (decRepr (s.snippet_index + 1) ++ ".txt".toList), true,
              h.trans (compiler_output_file_shape _ _)⟩
    | reportCall args =>
      by_cases hf : reportFoundIssue args = true
      · simp [itemLoop, hf, writePaths] at hp
      · simp [itemLoop, Bool.eq_false_iff.mpr hf, writePaths] at hp
    | unknownCall name => exact ih s p hp
    | message c cits => exact ih s p hp
    | fileSearchCall => exact ih s p hp
    | reasoning => exact ih s p hp
    | other d => exact ih s p hp

/-- Unfolding of `runSession` on a non-empty turn list. -/
theorem runSession_cons (ctx : AgentCtx) (tact : Compiler) (s : SessionState)
    (turn : List Item) (rest : List (List Item)) :
    runSession ctx tact s (turn :: rest) =
      (let r := processTurn ctx tact s turn
       if r.terminated then
         ⟨r.state, r.requests, r.sinkAppends, r.events, r.dispatched, true⟩
       else
         let tr := runSession ctx tact r.state rest
         ⟨tr.finalState, r.requests ++ tr.requests, r.sinkAppends ++ tr.sinkAppends,
           r.events ++ tr.events, r.dispatched ++ tr.dispatched, tr.terminated⟩) := rfl

/-- Every write path of a session lies in the session's namespace. -/
theorem runSession_shape (ctx : AgentCtx) (tact : Compiler) :
    ∀ (turns : List (List Item)) (s : SessionState) (p : Str),
      p ∈ writePaths (runSession ctx tact s turns).events →
      ∃ (t : Str) (d : Bool),
        p = (if d then "tmp/".toList else "snippets/".toList) ++ (AgentCtx.pfx ctx ++ t) := by
  intro turns
  induction turns with
  | nil => intro s p hp; simp [runSession, writePaths] at hp
  | cons turn rest ih =>
    intro s p hp
    rw [runSession_cons] at hp
    dsimp only at hp
    have turnShape : ∀ q, q ∈ writePaths (processTurn ctx tact s turn).events →
        ∃ (t : Str) (d : Bool),
          q = (if d then "tmp/".toList else "snippets/".toList) ++ (AgentCtx.pfx ctx ++ t) := by
      intro q hq
      cases turn with
      | nil => rw [processTurn_nil] at hq; simp [writePaths] at hq
      | cons it restItems =>
        rw [(processTurn_core ctx tact s it restItems).2.1] at hq
        exact itemLoop_shape ctx tact _ _ _ q hq
    by_cases ht : (processTurn ctx tact s turn).terminated = true
    · rw [if_pos ht] at hp
      exact turnShape p hp
    · rw [if_neg ht] at hp
      dsimp only at hp
      simp only [writePaths, List.filterMap_append, List.mem_append] at hp
      rcases hp with hp | hp
      · exact turnShape p hp
      · exact ih _ p hp

/-- The item loop either dispatches nothing and leaves the state alone, or
dispatches exactly the next counter value. -/
theorem itemLoop_counter (ctx : AgentCtx) (tact : Compiler) (A : List Item) :
    ∀ (items : List Item) (s : SessionState),
      ((itemLoop ctx tact A s items).dispatched = [] ∧ (itemLoop ctx tact A s items).state = s) ∨
      ((itemLoop ctx tact A s items).dispatched = [s.snippet_index + 1] ∧
        (itemLoop ctx tact A s items).state.snippet_index = s.snippet_index + 1) := by
  intro items
  induction items with
  | nil => intro s; exact Or.inl ⟨rfl, rfl⟩
  | cons it rest ih =>
    intro s
    cases it with
    | compileCall args =>
      cases args with
      | none => exact ih s
      | some cf => exact Or.inr ⟨rfl, rfl⟩
    | reportCall args =>
      by_cases hf : reportFoundIssue args = true
      · left
        constructor <;> simp [itemLoop, hf]
      · left
        constructor <;> simp [itemLoop, Bool.eq_false_iff.mpr hf]
    | unknownCall name => exact ih s
    | message c cits => exact ih s
    | fileSearchCall => exact ih s
    | reasoning => exact ih s
    | other d => exact ih s

/-- A turn either dispatches nothing and leaves the state alone, or
dispatches exactly the next counter value. -/
theorem processTurn_counter (ctx : AgentCtx) (tact : Compiler) (s : SessionState)
    (items : List Item) :
    ((processTurn ctx tact s items).dispatched = [] ∧ (processTurn ctx tact s items).state = s) ∨
    ((processTurn ctx tact s items).dispatched = [s.snippet_index + 1] ∧
      (processTurn ctx tact s items).state.snippet_index = s.snippet_index + 1) := by
  cases items with
  | nil => rw [processTurn_nil]; exact Or.inl ⟨rfl, rfl⟩
  | cons it rest =>
    have hc := processTurn_core ctx tact s it rest
    rcases itemLoop_counter ctx tact (it :: rest) (it :: rest) s with ⟨h1, h2⟩ | ⟨h1, h2⟩
    · exact Or.inl ⟨hc.2.2.1.trans h1, hc.1.trans h2⟩
    · exact Or.inr ⟨hc.2.2.1.trans h1, by rw [hc.1]; exact h2⟩

/-- Across a session the dispatched counter values are the consecutive
integers following the initial counter, and the counter ends at the
initial value plus the number of dispatches. -/
theorem runSession_counter (ctx : AgentCtx) (tact : Compiler) :
    ∀ (turns : List (List Item)) (s : SessionState), ∃ k,
      (runSession ctx tact s turns).dispatched = List.range' (s.snippet_index + 1) k ∧
      (runSession ctx tact s turns).finalState.snippet_index = s.snippet_index + k := by
  intro turns
  induction turns with
  | nil => intro s; exact ⟨0, rfl, rfl⟩
  | cons turn rest ih =>
    intro s
    rw [runSession_cons]
    dsimp only
    rcases processTurn_counter ctx tact s turn with ⟨h1, h2⟩ | ⟨h1, h2⟩
    · by_cases ht : (processTurn ctx tact s turn).terminated = true
      · rw [if_pos ht]
        exact ⟨0, h1, by simp [h2]⟩
      · rw [if_neg ht]
        dsimp only
        obtain ⟨k, hk1, hk2⟩ := ih (processTurn ctx tact s turn).state
        refine ⟨k, ?_, ?_⟩
        · rw [h1, hk1, h2]
          simp
        · rw [hk2, h2]
    · by_cases ht : (processTurn ctx tact s turn).terminated = true
      · rw [if_pos ht]
        refine ⟨1, ?_, by rw [h2]⟩
        rw [h1]
        rfl
      · rw [if_neg ht]
        dsimp only
        obtain ⟨k, hk1, hk2⟩ := ih (processTurn ctx tact s turn).state
        rw [h2] at hk1 hk2
        refine ⟨k + 1, ?_, by rw [hk2]; omega⟩
        rw [h1, hk1, List.range'_succ]
        rfl

/-- The item loop performs at most one gateway dispatch and returns at
most one compile tool output. -/
theorem itemLoop_bounds (ctx : AgentCtx) (tact : Compiler) (A : List Item) :
    ∀ (items : List Item) (s : SessionState),
      countExec (itemLoop ctx tact A s items).events ≤ 1 ∧
      countCompileOut (itemLoop ctx tact A s items).requests ≤ 1 := by
  intro items
  induction items with
  | nil => intro s; exact ⟨Nat.zero_le 1, Nat.zero_le 1⟩
  | cons it rest ih =>
    intro s
    cases it with
    | compileCall args =>
      cases args with
      | none => exact ih s
      | some cf =>
        constructor
        · exact le_of_eq (compile_snippet_exec tact (cf.getD []) (AgentCtx.pfx ctx)
            (s.snippet_index + 1))
        · exact le_refl 1
    | reportCall args =>
      by_cases hf : reportFoundIssue args = true
      · constructor <;> simp [itemLoop, hf, countExec, countCompileOut]
      · constructor <;> simp [itemLoop, Bool.eq_false_iff.mpr hf, countExec, countCompileOut]
    | unknownCall name => exact ih s
    | message c cits => exact ih s
    | fileSearchCall => exact ih s
    | reasoning => exact ih s
    | other d => exact ih s

/-- Scanning only observational items leaves the loop state untouched and
exits with nothing handled. -/
theorem itemLoop_observational (ctx : AgentCtx) (tact : Compiler) (A : List Item) :
    ∀ (items : List Item) (s : SessionState), (∀ it ∈ items, observational it = true) →
      itemLoop ctx tact A s items = ⟨s, [], [], [], [], false, false⟩ := by
  intro items
  induction items with
  | nil => intro s _; rfl
  | cons it rest ih =>
    intro s h
    have hrest : ∀ x ∈ rest, observational x = true := fun x hx => h x (by simp [hx])
    cases it with
    | compileCall args =>
      cases args with
      | none => exact ih s hrest
      | some cf =>
        exact absurd (h (Item.compileCall (some cf)) (by simp)) (by simp [observational])
    | reportCall args =>
      exact absurd (h (Item.reportCall args) (by simp)) (by simp [observational])
    | unknownCall name => exact ih s hrest
    | message c cits => exact ih s hrest
    | fileSearchCall => exact ih s hrest
    | reasoning => exact ih s hrest
    | other d => exact ih s hrest

/-- Acting on a report tool-call whose flag is true appends the report
body and terminates the turn. -/
theorem processTurn_report_true (ctx : AgentCtx) (tact : Compiler) (s : SessionState)
    (args : Option (Option Str × Option Bool)) (rest : List Item)
    (hf : reportFoundIssue args = true) :
    processTurn ctx tact s (Item.reportCall args :: rest) =
      ⟨s, [Request.reportAck],
        [report_message ctx.agentId (reportReason args) s.compiled_snippets
          (citedFiles (Item.reportCall args :: rest))], [], [], true⟩ := by
  have hl : itemLoop ctx tact (Item.reportCall args :: rest) s (Item.reportCall args :: rest) =
      ⟨s, [Request.reportAck],
        [report_message ctx.agentId (reportReason args) s.compiled_snippets
          (citedFiles (Item.reportCall args :: rest))], [], [], true, false⟩ := by
    simp [itemLoop, hf]
  rw [processTurn_cons, hl]
  rfl

/-- Acting on a report tool-call whose flag is false appends nothing and
issues the acknowledgement plus two continuation requests. -/
theorem processTurn_report_false (ctx : AgentCtx) (tact : Compiler) (s : SessionState)
    (args : Option (Option Str × Option Bool)) (rest : List Item)
    (hf : reportFoundIssue args = false) :
    processTurn ctx tact s (Item.reportCall args :: rest) =
      ⟨s, [Request.reportAck, Request.continueReq, Request.continueReq],
        [], [], [], false⟩ := by
  have hl : itemLoop ctx tact (Item.reportCall args :: rest) s (Item.reportCall args :: rest) =
      ⟨s, [Request.reportAck, Request.continueReq], [], [], [], false, false⟩ := by
    simp [itemLoop, hf]
  rw [processTurn_cons, hl]
  rfl

/-- C1: when a turn's report tool-call parses with a true genuine-issue
flag, the session appends exactly one record to the reported-issues file
and terminates; with a false flag it appends nothing and stays active. -/
theorem C1_report_flag (ctx : AgentCtx) (tact : Compiler) (s : SessionState)
    (args : Option (Option Str × Option Bool)) (rest : List Item) :
    (reportFoundIssue args = true →
      (processTurn ctx tact s (Item.reportCall args :: rest)).sinkAppends.length = 1 ∧
      (processTurn ctx tact s (Item.reportCall args :: rest)).terminated = true) ∧
    (reportFoundIssue args = false →
      (processTurn ctx tact s (Item.reportCall args :: rest)).sinkAppends = [] ∧
      (processTurn ctx tact s (Item.reportCall args :: rest)).terminated = false) := by
  constructor <;> intro hf
  · rw [processTurn_report_true ctx tact s args rest hf]
    exact ⟨rfl, rfl⟩
  · rw [processTurn_report_false ctx tact s args rest hf]
    exact ⟨rfl, rfl⟩

/-- C1 witness: concrete true and false report tool-calls. -/
theorem C1_witness :
    (processTurn ctxA okCompiler initialState
        [Item.reportCall (some (none, some true))]).terminated = true ∧
    (processTurn ctxA okCompiler initialState
        [Item.reportCall (some (none, some false))]).terminated = false :=
  ⟨((C1_report_flag ctxA okCompiler initialState (some (none, some true)) []).1 rfl).2,
   ((C1_report_flag ctxA okCompiler initialState (some (none, some false)) []).2 rfl).2⟩

/-- C2 counterexample: a failed compile whose output contains the
expected-failure phrase but also the internal-error marker is classified
as a bug, so presence of the phrase does not force a false answer. -/
theorem C2_counterexample :
    pyIn expectedFailurePhrase (pyLower cexOutput) = true ∧
    bug_found cexOutput false ≠ false := by
  constructor
  · decide
  · decide

/-- C2 (amended): for a failed compile the classifier returns true when
the output lacks the expected-failure phrase, and returns false when the
phrase is present and the internal-error marker is absent. -/
theorem C2_failed_compile (output : Str) :
    (pyIn expectedFailurePhrase (pyLower output) = false → bug_found output false = true) ∧
    (pyIn expectedFailurePhrase (pyLower output) = true →
      pyIn internalErrorMarker (pyLower output) = false → bug_found output false = false) := by
  constructor
  · intro h
    by_cases hm : pyIn internalErrorMarker (pyLower output) = true
    · simp [bug_found, hm]
    · simp [bug_found, Bool.eq_false_iff.mpr hm, h]
  · intro h1 h2
    simp [bug_found, h2, h1]

/-- C2 witness: concrete failed-compile outputs on both sides. -/
theorem C2_witness :
    bug_found ("boom".toList) false = true ∧
    bug_found ("tact compilation failed".toList) false = false :=
  ⟨(C2_failed_compile _).1 (by decide), (C2_failed_compile _).2 (by decide) (by decide)⟩

/-- C3: any output containing the internal-error marker in any letter
case is classified as a bug, for both values of the succeeded flag. -/
theorem C3_internal_error (output : Str) (succeeded : Bool) (v : Str)
    (hv : v <:+: output) (hlow : pyLower v = internalErrorMarker) :
    bug_found output succeeded = true := by
  have h1 : internalErrorMarker <:+: pyLower output := by
    rw [← hlow]
    exact List.IsInfix.map Char.toLower hv
  have h2 : pyIn internalErrorMarker (pyLower output) = true := by
    simp [pyIn, h1]
  simp [bug_found, h2]

/-- C3 witness: a mixed-case internal-error marker inside a successful
compile's output. -/
theorem C3_witness :
    bug_found ("ok INTERNAL Compiler Error seen".toList) true = true :=
  C3_internal_error _ _ ("INTERNAL Compiler Error".toList) (by decide) (by decide)

/-- The confirmed-good copy path is never the working copy path. -/
theorem snippet_destination_ne_tmp_file (p1 p2 : Str) (i j : Nat) :
    snippet_destination p1 i ≠ tmp_file p2 j := by
  intro h
  have h2 : 's' :: ("nippets/".toList ++ snippetFilename p1 i) =
      't' :: ("mp/".toList ++ snippetFilename p2 j) := h
  exact absurd (List.cons_eq_cons.mp h2).1 (by decide)

/-- The confirmed-good copy path is never the compiler-output record path. -/
theorem snippet_destination_ne_output_file (p1 p2 : Str) (i j : Nat) :
    snippet_destination p1 i ≠ compiler_output_file p2 j := by
  intro h
  have h2 : 's' :: ("nippets/".toList ++ snippetFilename p1 i) =
      't' :: ("mp/".toList ++ (p2 ++ '_' :: decRepr j ++ ".txt".toList)) := h
  exact absurd (List.cons_eq_cons.mp h2).1 (by decide)

/-- C4: the gateway reports success with the compiler's standard output
exactly on zero exit status, reports failure with the standard error
otherwise, and writes the confirmed-good copy only in the success case. -/
theorem C4_gateway (tact : Compiler) (code pfx : Str) (idx : Nat) :
    ((tact code).exitZero = true →
      (compile_snippet tact code pfx idx).1.succeeded = true ∧
      (compile_snippet tact code pfx idx).1.output = (tact code).stdout ∧
      FsEvent.write (snippet_destination pfx idx) code ∈ (compile_snippet tact code pfx idx).2) ∧
    ((tact code).exitZero = false →
      (compile_snippet tact code pfx idx).1.succeeded = false ∧
      (compile_snippet tact code pfx idx).1.output = (tact code).stderr ∧
      ∀ content, FsEvent.write (snippet_destination pfx idx) content ∉
        (compile_snippet tact code pfx idx).2) := by
  constructor <;> intro h
  · refine ⟨by simp [compile_snippet, h], by simp [compile_snippet, h], ?_⟩
    simp [compile_snippet, h]
  · refine ⟨by simp [compile_snippet, h], by simp [compile_snippet, h], ?_⟩
    intro content hmem
    have hmem2 : FsEvent.write (snippet_destination pfx idx) content ∈
        [FsEvent.write (tmp_file pfx idx) code,
         FsEvent.exec ["tact".toList, tmp_file pfx idx],
         FsEvent.write (compiler_output_file pfx idx) (tact code).stderr] := by
      simpa [compile_snippet, h] using hmem
    simp only [List.mem_cons, List.not_mem_nil, or_false] at hmem2
    rcases hmem2 with hmem2 | hmem2 | hmem2
    · refine snippet_destination_ne_tmp_file pfx pfx idx idx ?_
      injection hmem2 with h1 h2
    · exact FsEvent.noConfusion hmem2
    · refine snippet_destination_ne_output_file pfx pfx idx idx ?_
      injection hmem2 with h1 h2

/-- C4 witness: concrete succeeding and failing compiles. -/
theorem C4_witness :
    (compile_snippet okCompiler ("a".toList) ("q".toList) 3).1.succeeded = true ∧
    (compile_snippet failCompiler ("a".toList) ("q".toList) 3).1.output = "boom".toList :=
  ⟨((C4_gateway okCompiler ("a".toList) ("q".toList) 3).1 rfl).1,
   ((C4_gateway failCompiler ("a".toList) ("q".toList) 3).2 rfl).2.1⟩

/-- C5: a turn performs at most one gateway dispatch and returns at most
one compile tool output, and once the loop reaches a well-formed compile
call its result does not depend on the items after it in the turn. -/
theorem C5_single_dispatch (ctx : AgentCtx) (tact : Compiler) (s : SessionState)
    (items : List Item) :
    countExec (processTurn ctx tact s items).events ≤ 1 ∧
    countCompileOut (processTurn ctx tact s items).requests ≤ 1 ∧
    ∀ (A : List Item) (cf : Option Str) (rest rest2 : List Item),
      itemLoop ctx tact A s (Item.compileCall (some cf) :: rest) =
      itemLoop ctx tact A s (Item.compileCall (some cf) :: rest2) := by
  refine ⟨?_, ?_, fun A cf rest rest2 => rfl⟩
  · cases items with
    | nil => rw [processTurn_nil]; simp [countExec]
    | cons it rest =>
      rw [(processTurn_core ctx tact s it rest).2.1]
      exact (itemLoop_bounds ctx tact _ _ _).1
  · cases items with
    | nil => rw [processTurn_nil]; simp [countCompileOut]
    | cons it rest =>
      rw [processTurn_cons]
      dsimp only
      split
      · exact (itemLoop_bounds ctx tact _ _ _).2
      · split
        · exact (itemLoop_bounds ctx tact _ _ _).2
        · have hb := (itemLoop_bounds ctx tact (it :: rest) (it :: rest) s).2
          simpa [countCompileOut, List.countP_append] using hb

/-- C6 counterexample: acting on a false report issues two continuation
requests, not exactly one, and an empty turn also draws a continuation
even though it produced no items. -/
theorem C6_counterexample :
    countContinue (processTurn ctxA okCompiler initialState
      [Item.reportCall (some (none, some false))]).requests = 2 ∧
    (2 : Nat) ≠ 1 ∧
    countContinue (processTurn ctxA okCompiler initialState []).requests = 1 := by
  refine ⟨?_, by decide, ?_⟩ <;> rfl

/-- Scanning a run of purely observational items before the rest of the
turn does not change the loop's outcome. -/
theorem itemLoop_skip (ctx : AgentCtx) (tact : Compiler) (A : List Item) :
    ∀ (pre : List Item), (∀ it ∈ pre, observational it = true) →
      ∀ (items : List Item) (s : SessionState),
        itemLoop ctx tact A s (pre ++ items) = itemLoop ctx tact A s items := by
  intro pre
  induction pre with
  | nil => intro _ items s; rfl
  | cons it pre2 ih =>
    intro h items s
    have hrest : ∀ x ∈ pre2, observational x = true := fun x hx => h x (by simp [hx])
    cases it with
    | compileCall args =>
      cases args with
      | none => exact ih hrest items s
      | some cf =>
        exact absurd (h (Item.compileCall (some cf)) (by simp)) (by simp [observational])
    | reportCall args =>
      exact absurd (h (Item.reportCall args) (by simp)) (by simp [observational])
    | unknownCall name => exact ih hrest items s
    | message c cits => exact ih hrest items s
    | fileSearchCall => exact ih hrest items s
    | reasoning => exact ih hrest items s
    | other d => exact ih hrest items s

/-- Unfolding of `processTurn` on any non-empty turn. -/
theorem processTurn_of_ne_nil (ctx : AgentCtx) (tact : Compiler) (s : SessionState)
    (items : List Item) (h : items ≠ []) :
    processTurn ctx tact s items =
      (let r := itemLoop ctx tact items s items
       if r.terminated then ⟨r.state, r.requests, r.sinkAppends, r.events, r.dispatched, true⟩
       else if r.handled then
         ⟨r.state, r.requests, r.sinkAppends, r.events, r.dispatched, false⟩
       else
         ⟨r.state, r.requests ++ [Request.continueReq], r.sinkAppends, r.events,
           r.dispatched, false⟩) := by
  cases items with
  | nil => exact absurd rfl h
  | cons it rest => exact processTurn_cons ctx tact s it rest

/-- C6 (amended): after acting on a false report the session issues
exactly two keep-going directives before the next turn (the explicit
recovery one plus the end-of-scan one, because a report does not set the
handled flag) and stays active; the generic continuation is otherwise
issued exactly when a turn carries no items or produced only items the
session cannot act on — in both directions: an empty or purely
observational turn draws exactly one, while a turn whose first actionable
item is a well-formed compile call or a true report draws none. -/
theorem C6_continuation (ctx : AgentCtx) (tact : Compiler) (s : SessionState) :
    (∀ (args : Option (Option Str × Option Bool)) (rest : List Item),
      reportFoundIssue args = false →
        countContinue (processTurn ctx tact s (Item.reportCall args :: rest)).requests = 2 ∧
        (processTurn ctx tact s (Item.reportCall args :: rest)).terminated = false) ∧
    processTurn ctx tact s [] = ⟨s, [Request.continueReq], [], [], [], false⟩ ∧
    (∀ items : List Item, items ≠ [] → (∀ it ∈ items, observational it = true) →
      processTurn ctx tact s items = ⟨s, [Request.continueReq], [], [], [], false⟩) ∧
    (∀ (pre : List Item) (cf : Option Str) (rest : List Item),
      (∀ it ∈ pre, observational it = true) →
      countContinue (processTurn ctx tact s
        (pre ++ Item.compileCall (some cf) :: rest)).requests = 0) ∧
    (∀ (pre : List Item) (args : Option (Option Str × Option Bool)) (rest : List Item),
      (∀ it ∈ pre, observational it = true) → reportFoundIssue args = true →
      countContinue (processTurn ctx tact s
        (pre ++ Item.reportCall args :: rest)).requests = 0) ∧
    (∀ (pre : List Item) (args : Option (Option Str × Option Bool)) (rest : List Item),
      (∀ it ∈ pre, observational it = true) → reportFoundIssue args = false →
      countContinue (processTurn ctx tact s
        (pre ++ Item.reportCall args :: rest)).requests = 2) := by
  refine ⟨?_, processTurn_nil ctx tact s, ?_, ?_, ?_, ?_⟩
  · intro args rest hf
    rw [processTurn_report_false ctx tact s args rest hf]
    exact ⟨rfl, rfl⟩
  · intro items hne hobs
    cases items with
    | nil => exact absurd rfl hne
    | cons it rest =>
      rw [processTurn_cons, itemLoop_observational ctx tact (it :: rest) (it :: rest) s hobs]
      rfl
  · intro pre cf rest hobs
    rw [processTurn_of_ne_nil ctx tact s _ (by simp),
      itemLoop_skip ctx tact _ pre hobs (Item.compileCall (some cf) :: rest) s]
    rfl
  · intro pre args rest hobs hf
    rw [processTurn_of_ne_nil ctx tact s _ (by simp),
      itemLoop_skip ctx tact _ pre hobs (Item.reportCall args :: rest) s]
    have hl : itemLoop ctx tact (pre ++ Item.reportCall args :: rest) s
        (Item.reportCall args :: rest) =
        ⟨s, [Request.reportAck],
          [report_message ctx.agentId (reportReason args) s.compiled_snippets
            (citedFiles (pre ++ Item.reportCall args :: rest))], [], [], true, false⟩ := by
      simp [itemLoop, hf]
    rw [hl]
    rfl
  · intro pre args rest hobs hf
    rw [processTurn_of_ne_nil ctx tact s _ (by simp),
      itemLoop_skip ctx tact _ pre hobs (Item.reportCall args :: rest) s]
    have hl : itemLoop ctx tact (pre ++ Item.reportCall args :: rest) s
        (Item.reportCall args :: rest) =
        ⟨s, [Request.reportAck, Request.continueReq], [], [], [], false, false⟩ := by
      simp [itemLoop, hf]
    rw [hl]
    rfl

/-- C6 witness: a concrete malformed report payload parses to a false
flag and draws two continuation requests, while a concrete turn that
dispatches a compile call draws none. -/
theorem C6_witness :
    countContinue (processTurn ctxA okCompiler initialState
      [Item.reportCall none]).requests = 2 ∧
    countContinue (processTurn ctxA okCompiler initialState
      [Item.compileCall (some (some ("x".toList)))]).requests = 0 :=
  ⟨((C6_continuation ctxA okCompiler initialState).1 none [] rfl).1,
   (C6_continuation ctxA okCompiler initialState).2.2.2.1 [] (some ("x".toList)) []
     (by simp)⟩

/-- C7: within a session the dispatched snippet counter values are the
consecutive integers starting after the initial counter (so each parsed
compile call increments the counter by exactly one and no value is
reused), and sessions of distinct agent ids never write a common artifact
path, whatever their random run-prefix parts are. -/
theorem C7_namespace_isolation (ctx : AgentCtx) (tact : Compiler) (turns : List (List Item)) :
    (∃ k, (runSession ctx tact initialState turns).dispatched = List.range' 1 k ∧
      (runSession ctx tact initialState turns).finalState.snippet_index = k ∧
      List.Pairwise (· < ·) (runSession ctx tact initialState turns).dispatched) ∧
    (∀ (ctx2 : AgentCtx) (tact2 : Compiler) (turns2 : List (List Item)),
      ctx.agentId ≠ ctx2.agentId →
      ∀ p, p ∈ writePaths (runSession ctx tact initialState turns).events →
        p ∉ writePaths (runSession ctx2 tact2 initialState turns2).events) := by
  constructor
  · obtain ⟨k, h1, h2⟩ := runSession_counter ctx tact turns initialState
    refine ⟨k, h1, by simpa [initialState] using h2, ?_⟩
    rw [h1]
    exact List.pairwise_lt_range' 1 k
  · intro ctx2 tact2 turns2 hne p hp hp2
    obtain ⟨t1, d1, he1⟩ := runSession_shape ctx tact turns initialState p hp
    obtain ⟨t2, d2, he2⟩ := runSession_shape ctx2 tact2 turns2 initialState p hp2
    rw [he1] at he2
    exact nsPath_ne ctx.agentId ctx2.agentId hne ctx.randomPart ctx2.randomPart
      t1 t2 d1 d2 he2

/-- C7 witness: the path agent 1 writes for its first snippet is not
written by a session of agent 2. -/
theorem C7_witness :
    ("tmp/agent1_aaaaaaaa_1.tact".toList) ∉
      writePaths (runSession ctxB okCompiler initialState turnsW).events :=
  (C7_namespace_isolation ctxA okCompiler turnsW).2 ctxB okCompiler turnsW
    (by decide) ("tmp/agent1_aaaaaaaa_1.tact".toList) (by decide)

/-- C8 counterexample: a successful gateway call performs three file
writes (working copy, confirmed copy and the compiler-output record), not
two, and a failing one performs two, not one. -/
theorem C8_counterexample :
    (writePaths (compile_snippet okCompiler ("c".toList) ("p".toList) 1).2).length = 3 ∧
    (3 : Nat) ≠ 2 ∧
    (writePaths (compile_snippet failCompiler ("c".toList) ("p".toList) 1).2).length = 2 ∧
    (2 : Nat) ≠ 1 := ⟨rfl, by decide, rfl, by decide⟩

/-- C8 (amended): the gateway writes exactly the working copy, the
confirmed copy and the compiler-output record on success, exactly the
working copy and the compiler-output record on failure, and performs
exactly one subprocess execution; no other file is written. -/
theorem C8_write_trace (tact : Compiler) (code pfx : Str) (idx : Nat) :
    ((tact code).exitZero = true →
      writePaths (compile_snippet tact code pfx idx).2 =
        [tmp_file pfx idx, snippet_destination pfx idx, compiler_output_file pfx idx]) ∧
    ((tact code).exitZero = false →
      writePaths (compile_snippet tact code pfx idx).2 =
        [tmp_file pfx idx, compiler_output_file pfx idx]) ∧
    countExec (compile_snippet tact code pfx idx).2 = 1 := by
  refine ⟨?_, ?_, compile_snippet_exec tact code pfx idx⟩ <;> intro h <;>
    rw [compile_snippet_writePaths] <;> simp [h]

/-- C8 witness: the exact write traces of concrete succeeding and failing
compiles. -/
theorem C8_witness :
    writePaths (compile_snippet okCompiler ("a".toList) ("q".toList) 2).2 =
      [tmp_file ("q".toList) 2, snippet_destination ("q".toList) 2,
        compiler_output_file ("q".toList) 2] ∧
    writePaths (compile_snippet failCompiler ("a".toList) ("q".toList) 2).2 =
      [tmp_file ("q".toList) 2, compiler_output_file ("q".toList) 2] :=
  ⟨(C8_write_trace okCompiler ("a".toList) ("q".toList) 2).1 rfl,
   (C8_write_trace failCompiler ("a".toList) ("q".toList) 2).2.1 rfl⟩

/-- C9: `truncate` returns short strings unchanged and otherwise keeps
the first 200 characters followed by an ellipsis, so the excerpt embedded
in a bug-report directive is at most 203 characters and is a prefix of
the output, possibly followed by the ellipsis. -/
theorem C9_truncate (t : Str) :
    (t.length ≤ 200 → truncate t 200 = t) ∧
    (200 < t.length → truncate t 200 = t.take 200 ++ "...".toList) ∧
    (truncate t 200).length ≤ 203 ∧
    (∃ p, p <+: t ∧ (truncate t 200 = p ∨ truncate t 200 = p ++ "...".toList)) := by
  by_cases h : t.length ≤ 200
  · have heq : truncate t 200 = t := by rw [truncate, if_pos h]
    refine ⟨fun _ => heq, fun hc => absurd h (by omega), ?_, ?_⟩
    · rw [heq]
      omega
    · exact ⟨t, List.prefix_rfl, Or.inl heq⟩
  · have heq : truncate t 200 = t.take 200 ++ "...".toList := by rw [truncate, if_neg h]
    refine ⟨fun hc => absurd hc h, fun _ => heq, ?_, ?_⟩
    · rw [heq]
      simp only [List.length_append, List.length_take]
      have : ("...".toList).length = 3 := rfl
      omega
    · exact ⟨t.take 200, List.take_prefix 200 t, Or.inr heq⟩

/-- C9 witness: a short string is unchanged and a long one is bounded. -/
theorem C9_witness :
    truncate ("ab".toList) 200 = "ab".toList ∧
    (truncate (List.replicate 300 'x') 200).length ≤ 203 :=
  ⟨(C9_truncate ("ab".toList)).1 (by decide), (C9_truncate (List.replicate 300 'x')).2.2.1⟩

/-- C10: a compile tool-call whose payload decodes but lacks the code
field is not skipped: the counter advances by one, the gateway runs on
the empty source text, and an artifact path is recorded; only a
non-decodable payload is skipped without a gateway call. -/
theorem C10_missing_code_field (ctx : AgentCtx) (tact : Compiler) (A : List Item)
    (s : SessionState) (rest : List Item) :
    (itemLoop ctx tact A s (Item.compileCall (some none) :: rest)).state.snippet_index
        = s.snippet_index + 1 ∧
    (itemLoop ctx tact A s (Item.compileCall (some none) :: rest)).events
        = (compile_snippet tact [] (AgentCtx.pfx ctx) (s.snippet_index + 1)).2 ∧
    countExec (itemLoop ctx tact A s (Item.compileCall (some none) :: rest)).events = 1 ∧
    (itemLoop ctx tact A s (Item.compileCall (some none) :: rest)).state.compiled_snippets.length
        = s.compiled_snippets.length + 1 ∧
    (∀ rest2 : List Item, itemLoop ctx tact A s (Item.compileCall none :: rest2)
        = itemLoop ctx tact A s rest2) := by
  refine ⟨rfl, rfl, ?_, by simp [itemLoop], fun rest2 => rfl⟩
  exact compile_snippet_exec tact [] (AgentCtx.pfx ctx) (s.snippet_index + 1)
